import Mathlib

/-!
Shallow embedding of the STFT-based formant shifter of
`src/formant_shifter.py` (class `FormantShifter`), together with theorems
settling the specification claims about it.

Conventions of the embedding:
* Python floats are modelled as real numbers (`ℝ`), so all arithmetic is
  exact; numpy 1-D arrays are `List ℝ` and 2-D arrays are `RMat`
  (shape plus an entry function).
* `librosa.stft` / `librosa.istft` are third-party numerical routines, not
  code of this repository; `shift_formants_vowel` therefore takes the
  analysis step (producing magnitude and phase) and the synthesis step as
  opaque function parameters.
* Exceptions are modelled with `Except DspErr`.  The constructors
  `invalidSegment` and `lengthMismatch` come from the specification's
  error taxonomy (§7) so that claims about them can be stated; the code
  itself never raises them.  `broadcastError` models the numpy
  `ValueError` raised when array shapes cannot be broadcast together in
  an elementwise operation or a slice assignment.
* Mutation of buffers (claim about frame effects) is modelled with a tiny
  heap of addressed `List ℝ` buffers; a numpy slice assignment
  `out[a:b] = v` becomes a functional splice written back to `out`'s
  address.
-/

/-- Error values for the embedding.  `invalidSegment` and `lengthMismatch`
are the error taxonomy of the specification (§7); the source code defines
no such exceptions, so the embedding can only ever produce
`broadcastError`, the numpy `ValueError` for incompatible shapes. -/
inductive DspErr where
  | invalidSegment
  | lengthMismatch
  | broadcastError
  deriving DecidableEq

/-- A 2-D numpy array of reals: shape `(rows, cols)` plus an entry
function.  Entries outside the shape are irrelevant. -/
structure RMat where
  rows : ℕ
  cols : ℕ
  entry : ℕ → ℕ → ℝ

/-- Configuration of `FormantShifter.__init__`: sample rate, FFT size,
hop length, window length, and maximal warpable frequency. -/
structure FormantShifter where
  sr : ℝ
  n_fft : ℕ
  hop_length : ℕ
  win_length : ℕ
  max_freq : ℝ

/-- The class attribute `FormantShifter.vowel_shifts`: the phoneme → alpha
lookup table, transcribed verbatim from the source. -/
def vowel_shifts : List (String × ℝ) :=
  [("i", 1.10), ("ɪ", 1.05), ("e", 1.08), ("ɛ", 1.00), ("æ", 0.95),
   ("ɑ", 0.90), ("ɒ", 0.92), ("ɔ", 0.95), ("o", 1.00), ("ʊ", 0.97),
   ("u", 0.93), ("ʌ", 1.05), ("ə", 1.00), ("ɚ", 1.00), ("ɝ", 1.00)]

/-- Entry `i` of `np.linspace(0, b, n)`: evenly spaced points from `0` to
`b`; numpy special-cases `n = 1` to `[0]`. -/
noncomputable def linspace0 (b : ℝ) (n : ℕ) (i : ℕ) : ℝ :=
  if n = 1 then 0 else (i : ℝ) * b / ((n : ℝ) - 1)

/-- With real division-by-zero being `0`, the `n = 1` special case of
`linspace0` agrees with the generic formula, so the closed form holds for
every `n`. -/
theorem linspace0_eq (b : ℝ) (n i : ℕ) :
    linspace0 b n i = (i : ℝ) * b / ((n : ℝ) - 1) := by
  unfold linspace0
  split
  · rename_i h
    subst h
    norm_num
  · rfl

/-- Embedding of `FormantShifter.warp_magnitude` (source lines 57–87).
For each output bin `i` with center frequency `f = freqs[i]`:
above `max_freq` the row passes through; otherwise the source frequency
`f / alpha` is either outside `[0, max_freq]` (row stays at the
`np.zeros_like` value `0`) or is linearly interpolated from the two
neighbouring source bins. -/
noncomputable def warp_magnitude (self : FormantShifter) (mag : RMat)
    (alpha : ℝ) : RMat :=
  { rows := mag.rows
    cols := mag.cols
    entry := fun i t =>
      if i < mag.rows then
        let f := linspace0 (self.sr / 2) mag.rows i
        if self.max_freq < f then mag.entry i t
        else
          let src_f := f / alpha
          if src_f < 0 ∨ self.max_freq < src_f then 0
          else
            let src_idx := src_f / (self.sr / 2) * ((mag.rows : ℝ) - 1)
            let low : ℤ := ⌊src_idx⌋
            let high : ℤ := min (low + 1) ((mag.rows : ℤ) - 1)
            let weight : ℝ := src_idx - (low : ℝ)
            (1 - weight) * mag.entry low.toNat t +
              weight * mag.entry high.toNat t
      else 0 }

/-- C5: a bin whose center frequency exceeds `max_freq` is passed through
unchanged by `warp_magnitude`, for every matrix, alpha and frame. -/
theorem warp_passthrough_above_cutoff (self : FormantShifter) (mag : RMat)
    (alpha : ℝ) (i t : ℕ) (hi : i < mag.rows)
    (hf : self.max_freq < (i : ℝ) * (self.sr / 2) / ((mag.rows : ℝ) - 1)) :
    (warp_magnitude self mag alpha).entry i t = mag.entry i t := by
  unfold warp_magnitude
  simp only [if_pos hi]
  rw [linspace0_eq]
  simp only [if_pos hf]

/-- C5 witness: sample rate 16000, 513 bins, bin 400 has center frequency
6250 Hz > 4000 Hz, so it is untouched. -/
theorem warp_passthrough_above_cutoff_witness :
    (warp_magnitude ⟨16000, 1024, 256, 1024, 4000⟩
        ⟨513, 10, fun i t => (i : ℝ) + t⟩ (11/10)).entry 400 7 =
      (400 : ℝ) + 7 :=
  warp_passthrough_above_cutoff ⟨16000, 1024, 256, 1024, 4000⟩
    ⟨513, 10, fun i t => (i : ℝ) + t⟩ (11/10) 400 7
    (by norm_num) (by norm_num)

/-- C6: for a bin at or below the cutoff whose source frequency
`f / alpha` falls outside `[0, max_freq]`, the output row is exactly
zero: no energy is pulled in from outside the warpable band. -/
theorem warp_zero_outside_band (self : FormantShifter) (mag : RMat)
    (alpha : ℝ) (i t : ℕ) (hi : i < mag.rows) (_hα : 0 < alpha)
    (hle : (i : ℝ) * (self.sr / 2) / ((mag.rows : ℝ) - 1) ≤ self.max_freq)
    (hout : (i : ℝ) * (self.sr / 2) / ((mag.rows : ℝ) - 1) / alpha < 0 ∨
      self.max_freq <
        (i : ℝ) * (self.sr / 2) / ((mag.rows : ℝ) - 1) / alpha) :
    (warp_magnitude self mag alpha).entry i t = 0 := by
  unfold warp_magnitude
  simp only [if_pos hi]
  rw [linspace0_eq]
  rw [if_neg (not_lt.mpr hle), if_pos hout]

/-- C6 witness: sample rate 16000, 5 bins, `max_freq = 4000`, bin 2 at
4000 Hz, `alpha = 1/2` gives source frequency 8000 Hz > 4000 Hz, so the
output entry is zero. -/
theorem warp_zero_outside_band_witness :
    (warp_magnitude ⟨16000, 1024, 256, 1024, 4000⟩
        ⟨5, 3, fun i t => (i : ℝ) + t + 1⟩ (1/2)).entry 2 1 = 0 :=
  warp_zero_outside_band ⟨16000, 1024, 256, 1024, 4000⟩
    ⟨5, 3, fun i t => (i : ℝ) + t + 1⟩ (1/2) 2 1
    (by norm_num) (by norm_num) (by norm_num) (Or.inr (by norm_num))

/-- C7: `warp_magnitude` with `alpha = 1` is the identity: the shape is
preserved and, for a positive sample rate, every in-range entry is
returned exactly (so in particular within any floating-point tolerance). -/
theorem warp_identity (self : FormantShifter) (mag : RMat) (i t : ℕ)
    (hsr : 0 < self.sr) (hi : i < mag.rows) :
    (warp_magnitude self mag 1).rows = mag.rows ∧
    (warp_magnitude self mag 1).cols = mag.cols ∧
    (warp_magnitude self mag 1).entry i t = mag.entry i t := by
  refine ⟨rfl, rfl, ?_⟩
  unfold warp_magnitude
  simp only [if_pos hi]
  rw [linspace0_eq]
  set f : ℝ := (i : ℝ) * (self.sr / 2) / ((mag.rows : ℝ) - 1) with hfdef
  by_cases hcut : self.max_freq < f
  · simp only [if_pos hcut]
  · simp only [if_neg hcut, div_one]
    have hrows1 : 1 ≤ mag.rows := Nat.one_le_iff_ne_zero.mpr (by omega)
    have hsr2 : (0 : ℝ) < self.sr / 2 := by linarith
    have hidx : f / (self.sr / 2) * ((mag.rows : ℝ) - 1) = (i : ℝ) := by
      rcases Nat.lt_or_ge mag.rows 2 with h2 | h2
      · have hr1 : mag.rows = 1 := by omega
        have hi0 : i = 0 := by omega
        rw [hfdef, hr1, hi0]
        norm_num
      · have hden : ((mag.rows : ℝ) - 1) ≠ 0 := by
          have : (2 : ℝ) ≤ (mag.rows : ℝ) := by exact_mod_cast h2
          linarith
        field_simp [hfdef]
        ring
    have hf0 : 0 ≤ f := by
      rcases Nat.lt_or_ge mag.rows 2 with h2 | h2
      · have hr1 : mag.rows = 1 := by omega
        have hi0 : i = 0 := by omega
        rw [hfdef, hr1, hi0]
        norm_num
      · have hden : (0 : ℝ) < (mag.rows : ℝ) - 1 := by
          have : (2 : ℝ) ≤ (mag.rows : ℝ) := by exact_mod_cast h2
          linarith
        apply div_nonneg _ (le_of_lt hden)
        positivity
    rw [if_neg]
    · simp only [hidx]
      rw [Int.floor_natCast]
      simp
    · push_neg
      exact ⟨hf0, not_lt.mp hcut⟩

/-- C7 witness: at sample rate 16000 and `alpha = 1`, entry `(3, 2)` of a
concrete 5-by-4 matrix is returned unchanged and the shape is kept. -/
theorem warp_identity_witness :
    (warp_magnitude ⟨16000, 1024, 256, 1024, 4000⟩
        ⟨5, 4, fun i t => 2 * (i : ℝ) + t⟩ 1).rows = 5 ∧
    (warp_magnitude ⟨16000, 1024, 256, 1024, 4000⟩
        ⟨5, 4, fun i t => 2 * (i : ℝ) + t⟩ 1).cols = 4 ∧
    (warp_magnitude ⟨16000, 1024, 256, 1024, 4000⟩
        ⟨5, 4, fun i t => 2 * (i : ℝ) + t⟩ 1).entry 3 2 =
      2 * (3 : ℝ) + 2 :=
  warp_identity ⟨16000, 1024, 256, 1024, 4000⟩
    ⟨5, 4, fun i t => 2 * (i : ℝ) + t⟩ 3 2 (by norm_num) (by norm_num)

/-- Entry `n` of `np.hanning M` as a list: `0.5 - 0.5·cos(2πn/(M-1))`,
with numpy's special cases `np.hanning 1 = [1]` and `np.hanning 0 = []`. -/
noncomputable def hanning (M : ℕ) : List ℝ :=
  if M = 1 then [1]
  else (List.range M).map fun n : ℕ =>
    1 / 2 - 1 / 2 * Real.cos (2 * Real.pi * (n : ℝ) / ((M : ℝ) - 1))

/-- Elementwise binary operation on two numpy 1-D arrays with numpy's
broadcasting rule: a length-1 operand is stretched to the other operand's
length; otherwise the lengths must agree, else a `ValueError`. -/
def bcast2 (op : ℝ → ℝ → ℝ) : List ℝ → List ℝ → Except DspErr (List ℝ)
  | [x], ys => .ok (ys.map (op x))
  | xs, [y] => .ok (xs.map (fun x => op x y))
  | xs, ys =>
    if xs.length = ys.length then .ok (List.zipWith op xs ys)
    else .error .broadcastError

/-- Numpy slice assignment `xs[start:stop] = val` (indices already
resolved to clamped nonnegative positions): the value must have the
target's length, or length 1 (broadcast into the slice), else a
`ValueError`. -/
def setSlice (xs : List ℝ) (start stop : ℕ) (val : List ℝ) :
    Except DspErr (List ℝ) :=
  let s := min start xs.length
  let t := min stop xs.length
  if val.length = t - s then .ok (xs.take s ++ val ++ xs.drop t)
  else if val.length = 1 then
    .ok (xs.take s ++ List.replicate (t - s) (val.headD 0) ++ xs.drop t)
  else .error .broadcastError

/-- Python slice `xs[-f:]` for `f : ℕ`: the whole list when `f = 0`
(since `-0` is `0`), otherwise the last `min f (xs.length)` elements. -/
def sliceLast (xs : List ℝ) (f : ℕ) : List ℝ :=
  if f = 0 then xs else xs.drop (xs.length - f)

/-- Python slice `xs[f:-f]` for `f : ℕ`: empty when `f = 0` (it is
`xs[0:0]`), otherwise the elements from position `f` up to `length - f`. -/
def sliceMid (xs : List ℝ) (f : ℕ) : List ℝ :=
  if f = 0 then [] else (xs.drop f).take (xs.length - 2 * f)

/-- Embedding of `FormantShifter.crossfade` (source lines 120–144),
statement by statement: clamp the fade length, build the Hanning window,
copy `original` into `out`, then perform the three numpy slice
assignments; any numpy shape error aborts with `broadcastError`. -/
noncomputable def crossfade (_self : FormantShifter)
    (original shifted : List ℝ) (fade_len : ℕ) : Except DspErr (List ℝ) := do
  let f := min fade_len (original.length / 2)
  let window := hanning (2 * f)
  let fade_in := window.take f
  let fade_out := window.drop f
  let out := original
  let a1 ← bcast2 (· * ·) (original.take f) fade_out
  let a2 ← bcast2 (· * ·) (shifted.take f) fade_in
  let v1 ← bcast2 (· + ·) a1 a2
  let out ← setSlice out 0 f v1
  let out ← setSlice out f (if f = 0 then 0 else out.length - f)
      (sliceMid shifted f)
  let b1 ← bcast2 (· * ·) (sliceLast shifted f) fade_out
  let b2 ← bcast2 (· * ·) (sliceLast original f) fade_in
  let v3 ← bcast2 (· + ·) b1 b2
  let out ← setSlice out (if f = 0 then 0 else out.length - f) out.length v3
  return out

/-- Binding a successful `Except` computation runs the continuation. -/
theorem except_ok_bind {α β : Type} (a : α) (f : α → Except DspErr β) :
    (Except.ok a : Except DspErr α) >>= f = f a := rfl

/-- Binding a failed `Except` computation propagates the error. -/
theorem except_error_bind {α β : Type} (e : DspErr)
    (f : α → Except DspErr β) :
    (Except.error e : Except DspErr α) >>= f = Except.error e := rfl

/-- Every error `bcast2` can produce is a numpy broadcast error. -/
theorem bcast2_error {op : ℝ → ℝ → ℝ} {xs ys : List ℝ} {e : DspErr}
    (h : bcast2 op xs ys = .error e) : e = .broadcastError := by
  unfold bcast2 at h
  split at h
  · cases h
  · cases h
  · split at h
    · cases h
    · cases h
      rfl

/-- Every error `setSlice` can produce is a numpy broadcast error. -/
theorem setSlice_error {xs val : List ℝ} {start stop : ℕ} {e : DspErr}
    (h : setSlice xs start stop val = .error e) : e = .broadcastError := by
  simp only [setSlice] at h
  by_cases h1 : val.length = min stop xs.length - min start xs.length
  · rw [if_pos h1] at h
    cases h
  · rw [if_neg h1] at h
    by_cases h2 : val.length = 1
    · rw [if_pos h2] at h
      cases h
    · rw [if_neg h2] at h
      cases h
      rfl

/-- Error classification is preserved under `Except.bind`. -/
theorem except_bind_err {α β : Type} (x : Except DspErr α)
    (f : α → Except DspErr β)
    (hx : ∀ e, x = .error e → e = .broadcastError)
    (hf : ∀ a e, f a = .error e → e = .broadcastError) :
    ∀ e, x >>= f = .error e → e = .broadcastError := by
  intro e h
  cases x with
  | error e2 =>
    rw [except_error_bind] at h
    injection h with h2
    rw [← h2]
    exact hx e2 rfl
  | ok a =>
    rw [except_ok_bind] at h
    exact hf a e h

/-- Every error `crossfade` can produce is a numpy broadcast error: the
code contains no length check or `LengthMismatch` path at all. -/
theorem crossfade_error_broadcast (self : FormantShifter)
    (o s : List ℝ) (fade : ℕ) :
    ∀ e, crossfade self o s fade = .error e → e = .broadcastError := by
  unfold crossfade
  refine except_bind_err _ _ (fun e h => bcast2_error h) fun a1 => ?_
  refine except_bind_err _ _ (fun e h => bcast2_error h) fun a2 => ?_
  refine except_bind_err _ _ (fun e h => bcast2_error h) fun v1 => ?_
  refine except_bind_err _ _ (fun e h => setSlice_error h) fun o1 => ?_
  refine except_bind_err _ _ (fun e h => setSlice_error h) fun o2 => ?_
  refine except_bind_err _ _ (fun e h => bcast2_error h) fun b1 => ?_
  refine except_bind_err _ _ (fun e h => bcast2_error h) fun b2 => ?_
  refine except_bind_err _ _ (fun e h => bcast2_error h) fun v3 => ?_
  refine except_bind_err _ _ (fun e h => setSlice_error h) fun o3 => ?_
  intro e h
  cases h

/-- C2 (amended): `crossfade` never fails with a `LengthMismatch` error,
for any pair of inputs of any lengths — the code has no length check. -/
theorem crossfade_never_lengthMismatch (self : FormantShifter)
    (o s : List ℝ) (fade : ℕ) :
    crossfade self o s fade ≠ .error .lengthMismatch := by
  intro h
  have := crossfade_error_broadcast self o s fade .lengthMismatch h
  cases this

/-- C2 counterexample: with `original` of length 4 and `shifted` of
length 3 and fade 2 the call does not fail at all — it silently returns
a merged array (the claim demands a `LengthMismatch` failure). -/
theorem crossfade_mismatch_ok_cex :
    ([1, 2, 3, 4] : List ℝ).length ≠ ([5, 6, 7] : List ℝ).length ∧
    ∃ out, crossfade ⟨16000, 1024, 256, 1024, 4000⟩
      ([1, 2, 3, 4] : List ℝ) [5, 6, 7] 2 = .ok out :=
  ⟨by decide, ⟨_, rfl⟩⟩

/-- The Hanning window list has the requested length. -/
theorem hanning_length (M : ℕ) : (hanning M).length = M := by
  unfold hanning
  split
  · rename_i h
    rw [h]
    rfl
  · rw [List.length_map, List.length_range]

/-- Value written by the first slice assignment of `crossfade`:
`original[:f] * fade_out + shifted[:f] * fade_in`. -/
noncomputable def cfHead (o s : List ℝ) (f : ℕ) : List ℝ :=
  List.zipWith (· + ·)
    (List.zipWith (· * ·) (o.take f) ((hanning (2 * f)).drop f))
    (List.zipWith (· * ·) (s.take f) ((hanning (2 * f)).take f))

/-- Value written by the last slice assignment of `crossfade`:
`shifted[-f:] * fade_out + original[-f:] * fade_in`. -/
noncomputable def cfTail (o s : List ℝ) (f : ℕ) : List ℝ :=
  List.zipWith (· + ·)
    (List.zipWith (· * ·) (sliceLast s f) ((hanning (2 * f)).drop f))
    (List.zipWith (· * ·) (sliceLast o f) ((hanning (2 * f)).take f))

/-- On equal-length arrays, numpy broadcasting is exactly `zipWith`. -/
theorem bcast2_eq_zipWith (op : ℝ → ℝ → ℝ) :
    ∀ (xs ys : List ℝ), xs.length = ys.length →
      bcast2 op xs ys = .ok (List.zipWith op xs ys)
  | [], [], _ => rfl
  | [_], [_], _ => rfl
  | x :: x' :: xs, y :: y' :: ys, h => by
    simp only [bcast2]
    rw [if_pos h]
  | [], _ :: _, h => by simp at h
  | _ :: _, [], h => by simp at h
  | [_], _ :: _ :: _, h => by simp at h
  | _ :: _ :: _, [_], h => by simp at h

/-- A slice assignment whose value has exactly the target length splices
the value between the unchanged prefix and suffix. -/
theorem setSlice_eq (xs val : List ℝ) (start stop : ℕ)
    (hstart : start ≤ xs.length) (hstop : stop ≤ xs.length)
    (hv : val.length = stop - start) :
    setSlice xs start stop val =
      .ok (xs.take start ++ val ++ xs.drop stop) := by
  simp only [setSlice]
  rw [min_eq_left hstart, min_eq_left hstop, if_pos hv]

/-- Dropping past the first list of an append drops into the second. -/
theorem drop_append_ge (l1 l2 : List ℝ) (n : ℕ) (h : l1.length ≤ n) :
    (l1 ++ l2).drop n = l2.drop (n - l1.length) := by
  have hn : n = l1.length + (n - l1.length) := by omega
  rw [hn, List.drop_append]
  congr 1
  omega

/-- The first blended region has length `f` when both inputs reach `f`. -/
theorem cfHead_length (o s : List ℝ) (f : ℕ) (ho : f ≤ o.length)
    (hs : f ≤ s.length) : (cfHead o s f).length = f := by
  simp [cfHead, hanning_length]
  omega

/-- Length of the Python slice `s[f:-f]` for `f ≥ 1`. -/
theorem sliceMid_length (s : List ℝ) (f : ℕ) (hfne : ¬ f = 0) :
    (sliceMid s f).length = s.length - 2 * f := by
  simp [sliceMid, hfne]
  omega

/-- Length of the Python slice `xs[-f:]` for `1 ≤ f ≤ len(xs)`. -/
theorem sliceLast_length (xs : List ℝ) (f : ℕ) (hfne : ¬ f = 0)
    (hf : f ≤ xs.length) : (sliceLast xs f).length = f := by
  simp [sliceLast, hfne]
  omega

/-- The last blended region has length `f` when both inputs reach `f`. -/
theorem cfTail_length (o s : List ℝ) (f : ℕ) (hfne : ¬ f = 0)
    (ho : f ≤ o.length) (hs : f ≤ s.length) :
    (cfTail o s f).length = f := by
  simp [cfTail, hanning_length, sliceLast_length _ _ hfne ho,
    sliceLast_length _ _ hfne hs]
  omega

/-- Structure of a successful crossfade: with equal-length inputs and a
clamped fade `f ≥ 1`, the call succeeds and the output is the first
blended region, then `shifted[f:-f]` verbatim, then the last blended
region. -/
theorem crossfade_ok_decomp (self : FormantShifter) (o s : List ℝ)
    (fade : ℕ) (hlen : s.length = o.length)
    (hf : 1 ≤ min fade (o.length / 2)) :
    crossfade self o s fade =
      .ok (cfHead o s (min fade (o.length / 2)) ++
           sliceMid s (min fade (o.length / 2)) ++
           cfTail o s (min fade (o.length / 2))) := by
  set f := min fade (o.length / 2) with hfdef
  have h2f : 2 * f ≤ o.length := by
    have := Nat.min_le_right fade (o.length / 2)
    omega
  have hfo : f ≤ o.length := by omega
  have hfs : f ≤ s.length := by omega
  have hfne : ¬ f = 0 := by omega
  have hlw : (hanning (2 * f)).length = 2 * f := hanning_length _
  have hlin : ((hanning (2 * f)).take f).length = f := by
    simp [hlw]
    omega
  have hlout : ((hanning (2 * f)).drop f).length = f := by
    simp [hlw]
    omega
  have hA : (cfHead o s f).length = f := cfHead_length o s f hfo hfs
  have hC : (cfTail o s f).length = f := cfTail_length o s f hfne hfo hfs
  simp only [crossfade]
  rw [← hfdef]
  rw [bcast2_eq_zipWith _ _ _ (by simp [hlout]; omega), except_ok_bind,
    bcast2_eq_zipWith _ _ _ (by simp [hlin]; omega), except_ok_bind,
    bcast2_eq_zipWith _ _ _ (by simp [hlin, hlout]; omega), except_ok_bind]
  rw [setSlice_eq o _ 0 f (by omega) hfo
      (by
        show (cfHead o s f).length = f - 0
        omega),
    except_ok_bind]
  simp only [List.take_zero, List.nil_append]
  have hAdef : List.zipWith (fun x1 x2 => x1 + x2)
      (List.zipWith (fun x1 x2 => x1 * x2) (List.take f o)
        (List.drop f (hanning (2 * f))))
      (List.zipWith (fun x1 x2 => x1 * x2) (List.take f s)
        (List.take f (hanning (2 * f)))) = cfHead o s f := rfl
  rw [hAdef]
  have hout1len : (cfHead o s f ++ List.drop f o).length = o.length := by
    simp [hA]
    omega
  rw [if_neg hfne, hout1len]
  rw [setSlice_eq (cfHead o s f ++ List.drop f o) (sliceMid s f) f
      (o.length - f)
      (by rw [hout1len]; omega)
      (by rw [hout1len]; omega)
      (by rw [sliceMid_length s f hfne]; omega),
    except_ok_bind]
  rw [List.take_left' hA]
  rw [drop_append_ge (cfHead o s f) (List.drop f o) (o.length - f)
      (by rw [hA]; omega)]
  rw [hA, List.drop_drop]
  have hix : f + (o.length - f - f) = o.length - f := by omega
  rw [hix]
  rw [bcast2_eq_zipWith _ _ _
      (by rw [sliceLast_length s f hfne hfs, hlout]), except_ok_bind,
    bcast2_eq_zipWith _ _ _
      (by rw [sliceLast_length o f hfne hfo, hlin]), except_ok_bind,
    bcast2_eq_zipWith _ _ _ (by simp [sliceLast_length s f hfne hfs,
      sliceLast_length o f hfne hfo, hlin, hlout]), except_ok_bind]
  have hCdef : List.zipWith (fun x1 x2 => x1 + x2)
      (List.zipWith (fun x1 x2 => x1 * x2) (sliceLast s f)
        (List.drop f (hanning (2 * f))))
      (List.zipWith (fun x1 x2 => x1 * x2) (sliceLast o f)
        (List.take f (hanning (2 * f)))) = cfTail o s f := rfl
  rw [hCdef]
  have hout2len :
      (cfHead o s f ++ sliceMid s f ++ List.drop (o.length - f) o).length =
        o.length := by
    simp [hA, sliceMid_length s f hfne]
    omega
  rw [if_neg hfne, hout2len]
  rw [setSlice_eq (cfHead o s f ++ sliceMid s f ++ List.drop (o.length - f) o)
      (cfTail o s f) (o.length - f) o.length
      (by rw [hout2len]; omega)
      (by rw [hout2len])
      (by rw [hC]; omega),
    except_ok_bind]
  have htake : (cfHead o s f ++ sliceMid s f ++
      List.drop (o.length - f) o).take (o.length - f) =
      cfHead o s f ++ sliceMid s f := by
    rw [List.take_left']
    rw [List.length_append, hA, sliceMid_length s f hfne]
    omega
  have hdrop : (cfHead o s f ++ sliceMid s f ++
      List.drop (o.length - f) o).drop o.length = [] := by
    apply List.drop_eq_nil_of_le
    rw [hout2len]
  rw [htake, hdrop, List.append_nil]
  rfl

/-- Closed form of a Hanning window entry (for `M ≠ 1`). -/
theorem hanning_getElem (M n : ℕ) (hM : M ≠ 1) (hn : n < M) :
    (hanning M)[n]? =
      some (1 / 2 - 1 / 2 * Real.cos (2 * Real.pi * (n : ℝ) / ((M : ℝ) - 1))) := by
  unfold hanning
  rw [if_neg hM, List.getElem?_map, List.getElem?_range hn, Option.map_some']

/-- The first entry of an even-length Hanning window is exactly zero. -/
theorem hanning_first_zero (f : ℕ) (hf : 1 ≤ f) :
    (hanning (2 * f))[0]? = some 0 := by
  rw [hanning_getElem (2 * f) 0 (by omega) (by omega)]
  norm_num [Real.cos_zero]

/-- The last entry of an even-length Hanning window is exactly zero. -/
theorem hanning_last_zero (f : ℕ) (hf : 1 ≤ f) :
    (hanning (2 * f))[2 * f - 1]? = some 0 := by
  rw [hanning_getElem (2 * f) (2 * f - 1) (by omega) (by omega)]
  have hf1 : (1 : ℝ) ≤ (f : ℝ) := by exact_mod_cast hf
  have hcast : ((2 * f - 1 : ℕ) : ℝ) = 2 * (f : ℝ) - 1 := by
    rw [Nat.cast_sub (by omega)]
    push_cast
    ring
  have hden : (((2 * f : ℕ) : ℝ) - 1) ≠ 0 := by
    push_cast
    linarith
  rw [hcast]
  rw [show 2 * Real.pi * (2 * (f : ℝ) - 1) / (((2 * f : ℕ) : ℝ) - 1) =
      2 * Real.pi by
    push_cast at hden ⊢
    field_simp]
  norm_num [Real.cos_two_pi]

/-- C3 (amended): with equal-length inputs and clamped fade
`f = min fade_length (len/2) ≥ 1`, the call succeeds and every middle
sample `f ≤ i < len − f` of the output is `shifted[i]` verbatim.  (The
original claim's `f = 0` case is refuted separately: there the call
raises a numpy broadcast error instead of returning `shifted`.) -/
theorem crossfade_middle_verbatim (self : FormantShifter) (o s : List ℝ)
    (fade i : ℕ) (hlen : s.length = o.length)
    (hf : 1 ≤ min fade (o.length / 2))
    (hi1 : min fade (o.length / 2) ≤ i)
    (hi2 : i < o.length - min fade (o.length / 2)) :
    ∃ out, crossfade self o s fade = .ok out ∧ out[i]? = s[i]? := by
  set f := min fade (o.length / 2) with hfdef
  have h2f : 2 * f ≤ o.length := by
    have := Nat.min_le_right fade (o.length / 2)
    omega
  have hfo : f ≤ o.length := by omega
  have hfs : f ≤ s.length := by omega
  have hfne : ¬ f = 0 := by omega
  have hA : (cfHead o s f).length = f := cfHead_length o s f hfo hfs
  have hB : (sliceMid s f).length = s.length - 2 * f :=
    sliceMid_length s f hfne
  refine ⟨_, crossfade_ok_decomp self o s fade hlen hf, ?_⟩
  rw [List.getElem?_append, if_pos (by rw [List.length_append, hA, hB]; omega)]
  rw [List.getElem?_append, if_neg (by rw [hA]; omega)]
  rw [hA]
  unfold sliceMid
  rw [if_neg hfne]
  rw [List.getElem?_take_of_lt (by omega), List.getElem?_drop]
  congr 1
  omega

/-- C8 (amended): with equal-length inputs, whenever the clamped fade
`min fade_length (len/2)` is at least 1 the call never raises — it
returns an output of the input's length, every slice staying in bounds.
(When the clamped fade is 0 and the arrays are nonempty, the final slice
assignment raises a numpy broadcast error; see the counterexample.) -/
theorem crossfade_clamped_ok (self : FormantShifter) (o s : List ℝ)
    (fade : ℕ) (hlen : s.length = o.length)
    (hf : 1 ≤ min fade (o.length / 2)) :
    ∃ out, crossfade self o s fade = .ok out ∧ out.length = o.length := by
  set f := min fade (o.length / 2) with hfdef
  have h2f : 2 * f ≤ o.length := by
    have := Nat.min_le_right fade (o.length / 2)
    omega
  have hfo : f ≤ o.length := by omega
  have hfs : f ≤ s.length := by omega
  have hfne : ¬ f = 0 := by omega
  refine ⟨_, crossfade_ok_decomp self o s fade hlen hf, ?_⟩
  rw [List.length_append, List.length_append,
    cfHead_length o s f hfo hfs, sliceMid_length s f hfne,
    cfTail_length o s f hfne hfo hfs]
  omega


/-- An in-bounds optional lookup is `some` of the defaulted lookup. -/
theorem getElem?_getD_of_lt (l : List ℝ) (n : ℕ) (h : n < l.length) :
    l[n]? = some (l.getD n 0) := by
  rw [List.getElem?_eq_getElem h, List.getD_eq_getElem?_getD,
    List.getElem?_eq_getElem h]
  rfl

/-- Pointwise value of a blend `xs*ys + zs*ws` of four lists. -/
theorem zipWith_blend_getElem {xs ys zs ws : List ℝ} {n : ℕ} {a b c d : ℝ}
    (hx : xs[n]? = some a) (hy : ys[n]? = some b) (hz : zs[n]? = some c)
    (hw : ws[n]? = some d) :
    (List.zipWith (· + ·) (List.zipWith (· * ·) xs ys)
      (List.zipWith (· * ·) zs ws))[n]? = some (a * b + c * d) := by
  rw [List.getElem?_zipWith_eq_some]
  refine ⟨a * b, c * d, ?_, ?_, rfl⟩
  · rw [List.getElem?_zipWith_eq_some]
    exact ⟨a, b, hx, hy, rfl⟩
  · rw [List.getElem?_zipWith_eq_some]
    exact ⟨c, d, hz, hw, rfl⟩

/-- C4 (amended): with equal-length inputs and clamped fade `f ≥ 1`, the
call succeeds, and at both boundary samples the `shifted` contribution is
exactly zero, but the output equals `original` scaled by an interior
Hanning value rather than `original` itself:
`out[0] = hanning(2f)[f] * original[0]` and
`out[-1] = hanning(2f)[f-1] * original[-1]`.  These factors are not 1 in
general (for `f = 1` they are 0), which refutes exact boundary
equality. -/
theorem crossfade_boundary_scaled (self : FormantShifter) (o s : List ℝ)
    (fade : ℕ) (hlen : s.length = o.length)
    (hf : 1 ≤ min fade (o.length / 2)) :
    ∃ out, crossfade self o s fade = .ok out ∧
      out[0]? = some ((hanning (2 * min fade (o.length / 2))).getD
        (min fade (o.length / 2)) 0 * o.getD 0 0) ∧
      out[o.length - 1]? = some ((hanning (2 * min fade (o.length / 2))).getD
        (min fade (o.length / 2) - 1) 0 * o.getD (o.length - 1) 0) := by
  have h2f : 2 * min fade (o.length / 2) ≤ o.length := by
    have := Nat.min_le_right fade (o.length / 2)
    omega
  refine ⟨_, crossfade_ok_decomp self o s fade hlen hf, ?_⟩
  obtain ⟨f, hfdef⟩ : ∃ k, min fade (o.length / 2) = k := ⟨_, rfl⟩
  rw [hfdef] at hf h2f ⊢
  have hfo : f ≤ o.length := by omega
  have hfs : f ≤ s.length := by omega
  have hfne : ¬ f = 0 := by omega
  have hw : (hanning (2 * f)).length = 2 * f := hanning_length _
  have hA : (cfHead o s f).length = f := cfHead_length o s f hfo hfs
  have hB : (sliceMid s f).length = s.length - 2 * f :=
    sliceMid_length s f hfne
  have hC : (cfTail o s f).length = f := cfTail_length o s f hfne hfo hfs
  constructor
  · rw [List.getElem?_append,
      if_pos (by rw [List.length_append, hA, hB]; omega)]
    rw [List.getElem?_append, if_pos (by rw [hA]; omega)]
    have hto : (o.take f)[0]? = some (o.getD 0 0) := by
      rw [List.getElem?_take_of_lt (by omega)]
      exact getElem?_getD_of_lt o 0 (by omega)
    have hwf : ((hanning (2 * f)).drop f)[0]? =
        some ((hanning (2 * f)).getD f 0) := by
      rw [List.getElem?_drop]
      have : f + 0 = f := by omega
      rw [this]
      exact getElem?_getD_of_lt _ f (by omega)
    have hts : (s.take f)[0]? = some (s.getD 0 0) := by
      rw [List.getElem?_take_of_lt (by omega)]
      exact getElem?_getD_of_lt s 0 (by omega)
    have hw0 : ((hanning (2 * f)).take f)[0]? = some 0 := by
      rw [List.getElem?_take_of_lt (by omega)]
      exact hanning_first_zero f (by omega)
    unfold cfHead
    rw [zipWith_blend_getElem hto hwf hts hw0]
    congr 1
    ring
  · rw [List.getElem?_append,
      if_neg (by rw [List.length_append, hA, hB]; omega)]
    rw [List.length_append, hA, hB]
    have hix : o.length - 1 - (f + (s.length - 2 * f)) = f - 1 := by omega
    rw [hix]
    have hts : (sliceLast s f)[f - 1]? = some (s.getD (s.length - 1) 0) := by
      unfold sliceLast
      rw [if_neg hfne, List.getElem?_drop]
      have : s.length - f + (f - 1) = s.length - 1 := by omega
      rw [this]
      exact getElem?_getD_of_lt s _ (by omega)
    have hwlast : ((hanning (2 * f)).drop f)[f - 1]? = some 0 := by
      rw [List.getElem?_drop]
      have : f + (f - 1) = 2 * f - 1 := by omega
      rw [this]
      exact hanning_last_zero f (by omega)
    have hto : (sliceLast o f)[f - 1]? = some (o.getD (o.length - 1) 0) := by
      unfold sliceLast
      rw [if_neg hfne, List.getElem?_drop]
      have : o.length - f + (f - 1) = o.length - 1 := by omega
      rw [this]
      exact getElem?_getD_of_lt o _ (by omega)
    have hwin : ((hanning (2 * f)).take f)[f - 1]? =
        some ((hanning (2 * f)).getD (f - 1) 0) := by
      rw [List.getElem?_take_of_lt (by omega)]
      exact getElem?_getD_of_lt _ _ (by omega)
    unfold cfTail
    rw [zipWith_blend_getElem hts hwlast hto hwin]
    congr 1
    ring

/-- C3 counterexample: equal-length inputs with `fade_length = 0`, so the
clamped fade `f` is 0.  The claim demands that the entire output equal
`shifted`; instead the final slice assignment `out[-0:] = shifted[-0:] *
fade_out + ...` multiplies the whole array by an empty window and raises
a numpy broadcast `ValueError`, so no output is produced at all. -/
theorem crossfade_zero_fade_cex :
    min 0 (([1, 1] : List ℝ).length / 2) = 0 ∧
    crossfade ⟨16000, 1024, 256, 1024, 4000⟩ ([1, 1] : List ℝ) [2, 2] 0 =
      .error .broadcastError :=
  ⟨rfl, rfl⟩

/-- C3 witness: `original = [1,2,3,4]`, `shifted = [5,6,7,8]`,
`fade_length = 1` (clamped fade 1), middle index 2 carries `shifted[2]`. -/
theorem crossfade_middle_verbatim_witness :
    ∃ out, crossfade ⟨16000, 1024, 256, 1024, 4000⟩
        ([1, 2, 3, 4] : List ℝ) [5, 6, 7, 8] 1 = .ok out ∧
      out[2]? = ([5, 6, 7, 8] : List ℝ)[2]? :=
  crossfade_middle_verbatim ⟨16000, 1024, 256, 1024, 4000⟩
    [1, 2, 3, 4] [5, 6, 7, 8] 1 2 (by decide) (by decide) (by decide)
    (by decide)

/-- C4 counterexample: `original = [1,2]`, `shifted = [0,0]`,
`fade_length = 1`.  Here `np.hanning 2 = [0, 0]`, so the output is
`[0, 0]`: its first sample is `0`, not `original[0] = 1`, refuting exact
boundary equality. -/
theorem crossfade_boundary_cex :
    crossfade ⟨16000, 1024, 256, 1024, 4000⟩ ([1, 2] : List ℝ) [0, 0] 1 =
      .ok [0, 0] ∧ (0 : ℝ) ≠ 1 := by
  constructor
  · have h2 : hanning 2 = [0, 0] := by
      unfold hanning
      simp only [List.range_succ, List.range_zero]
      norm_num [Real.cos_two_pi, Real.cos_zero]
    simp [crossfade, h2, bcast2, setSlice, sliceMid, sliceLast,
      except_ok_bind]
  · norm_num

/-- C4 witness: `original = [1,2,3,4]`, `shifted = [9,9,9,9]`,
`fade_length = 2` (clamped fade 2): the call succeeds and the boundary
samples are the Hanning-scaled original samples. -/
theorem crossfade_boundary_scaled_witness :
    ∃ out, crossfade ⟨16000, 1024, 256, 1024, 4000⟩
        ([1, 2, 3, 4] : List ℝ) [9, 9, 9, 9] 2 = .ok out ∧
      out[0]? = some ((hanning (2 * min 2 (([1, 2, 3, 4] : List ℝ).length / 2))).getD
        (min 2 (([1, 2, 3, 4] : List ℝ).length / 2)) 0 *
          ([1, 2, 3, 4] : List ℝ).getD 0 0) ∧
      out[([1, 2, 3, 4] : List ℝ).length - 1]? =
        some ((hanning (2 * min 2 (([1, 2, 3, 4] : List ℝ).length / 2))).getD
          (min 2 (([1, 2, 3, 4] : List ℝ).length / 2) - 1) 0 *
            ([1, 2, 3, 4] : List ℝ).getD (([1, 2, 3, 4] : List ℝ).length - 1) 0) :=
  crossfade_boundary_scaled ⟨16000, 1024, 256, 1024, 4000⟩
    [1, 2, 3, 4] [9, 9, 9, 9] 2 (by decide) (by decide)

/-- C8 counterexample: equal-length single-sample arrays with a large
fade.  The clamp makes `f = 0`, and the final slice assignment
`out[-0:] = shifted[-0:] * fade_out + original[-0:] * fade_in` then
multiplies a length-1 array by the empty window: numpy raises a
broadcast `ValueError`, refuting "never raises". -/
theorem crossfade_degenerate_raises_cex :
    crossfade ⟨16000, 1024, 256, 1024, 4000⟩ ([1] : List ℝ) [1] 3 =
      .error .broadcastError :=
  rfl

/-- C8 witness: length-3 inputs with `fade_length = 5` clamp to fade 1;
the call succeeds and preserves the length. -/
theorem crossfade_clamped_ok_witness :
    ∃ out, crossfade ⟨16000, 1024, 256, 1024, 4000⟩
        ([3, 3, 3] : List ℝ) [4, 4, 4] 5 = .ok out ∧
      out.length = ([3, 3, 3] : List ℝ).length :=
  crossfade_clamped_ok ⟨16000, 1024, 256, 1024, 4000⟩
    [3, 3, 3] [4, 4, 4] 5 (by decide) (by decide)

/-- Python `int()` applied to a float: truncation toward zero. -/
noncomputable def pyInt (x : ℝ) : ℤ :=
  if 0 ≤ x then ⌊x⌋ else ⌈x⌉

/-- Resolution of one Python slice endpoint against a length `n`:
negative indices count from the end (clamped at 0), nonnegative ones are
clamped at `n`. -/
def pyIdx (n : ℕ) (i : ℤ) : ℕ :=
  if i < 0 then ((n : ℤ) + i).toNat else min i.toNat n

/-- Python slice `xs[a:b]` with `int` endpoints: never raises, silently
clamps, and wraps negative indices. -/
noncomputable def pySlice (xs : List ℝ) (a b : ℤ) : List ℝ :=
  (xs.take (pyIdx xs.length b)).drop (pyIdx xs.length a)

/-- The phoneme dictionary consumed by `shift_formants_vowel`: keys
`phoneme`, `start` and `end` (the latter named `end_` here since `end`
is reserved); times are in seconds. -/
structure Phoneme where
  phoneme : String
  start : ℝ
  end_ : ℝ

/-- Embedding of `FormantShifter.shift_formants_vowel` (source lines
101–118).  `librosa.stft` composed with the polar decomposition
(`np.abs`, `np.angle`) and `librosa.istft` are third-party numerical
routines, not code of this repository, so they are taken as opaque
function parameters `stftF` (segment ↦ (magnitude, phase)) and `istftF`
((magnitude, phase) ↦ samples).  The function performs no validation of
the segment boundaries whatsoever — the slice is taken with Python's
clamping semantics and processed unconditionally — so the embedding
always returns `.ok`; the `Except` type is only there to make the
specification's `InvalidSegment` claim statable. -/
noncomputable def shift_formants_vowel (self : FormantShifter)
    (stftF : List ℝ → RMat × RMat) (istftF : RMat → RMat → List ℝ)
    (audio : List ℝ) (phoneme : Phoneme) : Except DspErr (List ℝ) :=
  let alpha := (vowel_shifts.lookup phoneme.phoneme).getD 1
  let start_s := pyInt (phoneme.start * self.sr)
  let end_s := pyInt (phoneme.end_ * self.sr)
  let segment := pySlice audio start_s end_s
  let S := stftF segment
  let mag := S.1
  let phase := S.2
  let mag_warped := warp_magnitude self mag alpha
  let shifted_segment := istftF mag_warped phase
  .ok shifted_segment

/-- A tiny heap of addressed numpy buffers, to make buffer identity and
in-place mutation explicit for the frame-effect claims. -/
structure Heap where
  data : ℕ → List ℝ
  next : ℕ

/-- Reads the buffer at an address. -/
def Heap.read (h : Heap) (a : ℕ) : List ℝ := h.data a

/-- Overwrites the buffer at an address (numpy in-place assignment). -/
def Heap.write (h : Heap) (a : ℕ) (v : List ℝ) : Heap :=
  ⟨fun x => if x = a then v else h.data x, h.next⟩

/-- Allocates a fresh buffer (numpy `.copy()`), returning the new heap
and the fresh address. -/
def Heap.alloc (h : Heap) (v : List ℝ) : Heap × ℕ :=
  (⟨fun x => if x = h.next then v else h.data x, h.next + 1⟩, h.next)

/-- `shift_formants_vowel` run against a heap: the source performs no
subscript assignment at all — it only reads the `audio` buffer — so the
heap comes back untouched alongside the freshly constructed result. -/
noncomputable def shiftH (self : FormantShifter)
    (stftF : List ℝ → RMat × RMat) (istftF : RMat → RMat → List ℝ)
    (h : Heap) (audioA : ℕ) (phoneme : Phoneme) :
    Except DspErr (Heap × List ℝ) :=
  (shift_formants_vowel self stftF istftF (h.read audioA) phoneme).map
    (fun r => (h, r))

/-- Embedding of `FormantShifter.crossfade` against the heap, statement
by statement: `out = original.copy()` allocates a fresh buffer, and each
of the three numpy slice assignments writes back to `out`'s address;
the argument buffers are only ever read. -/
noncomputable def crossfadeH (_self : FormantShifter) (h : Heap)
    (originalA shiftedA : ℕ) (fade_len : ℕ) :
    Except DspErr (Heap × ℕ) := do
  let f := min fade_len ((h.read originalA).length / 2)
  let window := hanning (2 * f)
  let fade_in := window.take f
  let fade_out := window.drop f
  let p := h.alloc (h.read originalA)
  let h1 := p.1
  let outA := p.2
  let a1 ← bcast2 (· * ·) ((h1.read originalA).take f) fade_out
  let a2 ← bcast2 (· * ·) ((h1.read shiftedA).take f) fade_in
  let v1 ← bcast2 (· + ·) a1 a2
  let o1 ← setSlice (h1.read outA) 0 f v1
  let h2 := h1.write outA o1
  let o2 ← setSlice (h2.read outA) f
      (if f = 0 then 0 else (h2.read outA).length - f)
      (sliceMid (h2.read shiftedA) f)
  let h3 := h2.write outA o2
  let b1 ← bcast2 (· * ·) (sliceLast (h3.read shiftedA) f) fade_out
  let b2 ← bcast2 (· * ·) (sliceLast (h3.read originalA) f) fade_in
  let v3 ← bcast2 (· + ·) b1 b2
  let o3 ← setSlice (h3.read outA)
      (if f = 0 then 0 else (h3.read outA).length - f)
      (h3.read outA).length v3
  let h4 := h3.write outA o3
  return (h4, outA)

/-- Successful binds of `Except` computations factor through `.ok`. -/
theorem except_bind_ok_inv {α β : Type} (x : Except DspErr α)
    (f : α → Except DspErr β) (b : β) (h : x >>= f = .ok b) :
    ∃ a, x = .ok a ∧ f a = .ok b := by
  cases x with
  | error e =>
    rw [except_error_bind] at h
    cases h
  | ok a =>
    rw [except_ok_bind] at h
    exact ⟨a, rfl, h⟩

/-- C10: neither operation mutates its argument buffers.  A successful
`shiftH` returns the heap exactly as it was (the source only reads a
slice of `audio` and returns a freshly constructed array), and a
successful `crossfadeH` on valid argument addresses leaves both the
`original` and the `shifted` buffer holding their pre-call contents —
every write targets the fresh copy `out`. -/
theorem no_argument_mutation :
    (∀ (self : FormantShifter) (stftF : List ℝ → RMat × RMat)
        (istftF : RMat → RMat → List ℝ) (h : Heap) (audioA : ℕ)
        (ph : Phoneme) (h' : Heap) (r : List ℝ),
        shiftH self stftF istftF h audioA ph = .ok (h', r) → h' = h) ∧
    (∀ (self : FormantShifter) (h : Heap) (oA sA fade : ℕ)
        (h' : Heap) (outA : ℕ),
        oA < h.next → sA < h.next →
        crossfadeH self h oA sA fade = .ok (h', outA) →
        h'.read oA = h.read oA ∧ h'.read sA = h.read sA) := by
  constructor
  · intro self stftF istftF h audioA ph h' r hok
    unfold shiftH shift_formants_vowel at hok
    simp only [Except.map] at hok
    injection hok with hok
    injection hok with hok _
    exact hok.symm
  · intro self h oA sA fade h' outA hoA hsA hok
    simp only [crossfadeH] at hok
    obtain ⟨a1, ha1, hok⟩ := except_bind_ok_inv _ _ _ hok
    obtain ⟨a2, ha2, hok⟩ := except_bind_ok_inv _ _ _ hok
    obtain ⟨v1, hv1, hok⟩ := except_bind_ok_inv _ _ _ hok
    obtain ⟨o1, ho1, hok⟩ := except_bind_ok_inv _ _ _ hok
    obtain ⟨o2, ho2, hok⟩ := except_bind_ok_inv _ _ _ hok
    obtain ⟨b1, hb1, hok⟩ := except_bind_ok_inv _ _ _ hok
    obtain ⟨b2, hb2, hok⟩ := except_bind_ok_inv _ _ _ hok
    obtain ⟨v3, hv3, hok⟩ := except_bind_ok_inv _ _ _ hok
    obtain ⟨o3, ho3, hok⟩ := except_bind_ok_inv _ _ _ hok
    injection hok with hok
    injection hok with hh _
    subst hh
    constructor
    · simp only [Heap.read, Heap.write, Heap.alloc]
      rw [if_neg (by omega), if_neg (by omega), if_neg (by omega),
        if_neg (by omega)]
    · simp only [Heap.read, Heap.write, Heap.alloc]
      rw [if_neg (by omega), if_neg (by omega), if_neg (by omega),
        if_neg (by omega)]

/-- C10 witness: a concrete two-buffer heap.  The shift leaves the heap
untouched, and the crossfade run succeeds while both argument buffers
keep their pre-call contents. -/
theorem no_argument_mutation_witness :
    (∃ h2 r, shiftH ⟨1, 1024, 256, 1024, 4000⟩
        (fun _ => (⟨0, 0, fun _ _ => 0⟩, ⟨0, 0, fun _ _ => 0⟩))
        (fun _ _ => [])
        ⟨fun a => if a = 0 then [0, 0] else if a = 1 then [0, 0] else [],
          2⟩ 0 ⟨"ɑ", 0, 1⟩ =
        .ok (h2, r) ∧
      h2 = ⟨fun a => if a = 0 then [0, 0] else if a = 1 then [0, 0]
        else [], 2⟩) ∧
    (∃ p, crossfadeH ⟨1, 1024, 256, 1024, 4000⟩
        ⟨fun a => if a = 0 then [0, 0] else if a = 1 then [0, 0] else [],
          2⟩ 0 1 1 = .ok p ∧
      p.1.read 0 = [0, 0] ∧ p.1.read 1 = [0, 0]) := by
  constructor
  · refine ⟨_, _, rfl, ?_⟩
    exact no_argument_mutation.1 ⟨1, 1024, 256, 1024, 4000⟩
      (fun _ => (⟨0, 0, fun _ _ => 0⟩, ⟨0, 0, fun _ _ => 0⟩))
      (fun _ _ => [])
      ⟨fun a => if a = 0 then [0, 0] else if a = 1 then [0, 0] else [], 2⟩
      0 ⟨"ɑ", 0, 1⟩ _ _ rfl
  · have hp : ∃ p, crossfadeH ⟨1, 1024, 256, 1024, 4000⟩
        ⟨fun a => if a = 0 then [0, 0] else if a = 1 then [0, 0] else [],
          2⟩ 0 1 1 = .ok p := ⟨_, rfl⟩
    obtain ⟨⟨h2, outA⟩, hpe⟩ := hp
    have := no_argument_mutation.2 ⟨1, 1024, 256, 1024, 4000⟩
      ⟨fun a => if a = 0 then [0, 0] else if a = 1 then [0, 0] else [], 2⟩
      0 1 1 h2 outA (by norm_num) (by norm_num) hpe
    exact ⟨⟨h2, outA⟩, hpe, this.1, this.2⟩

/-- C1 (amended): `shift_formants_vowel` performs no validation of the
segment boundaries and raises no error of any kind: for every
configuration, waveform buffer, phoneme descriptor (including empty and
out-of-range segments) and every pair of external transform functions,
the call returns `.ok` and the heap — hence the source waveform
buffer — is exactly as before the call. -/
theorem shift_no_validation :
    ∀ (self : FormantShifter) (stftF : List ℝ → RMat × RMat)
      (istftF : RMat → RMat → List ℝ) (h : Heap) (audioA : ℕ)
      (ph : Phoneme),
      ∃ r, shiftH self stftF istftF h audioA ph = .ok (h, r) := by
  intro self stftF istftF h audioA ph
  exact ⟨_, rfl⟩

/-- C1 counterexample: an empty segment descriptor (`start = end = 0`,
so `start_sample = end_sample = 0`) passed to `shift_formants_vowel`
does not raise `InvalidSegment` — the empty slice is processed through
the pipeline and an output is returned. -/
theorem shift_returns_ok_on_empty_segment_cex :
    pyInt ((0 : ℝ) * (1 : ℝ)) = 0 ∧
    shift_formants_vowel ⟨1, 1024, 256, 1024, 4000⟩
      (fun _ => (⟨0, 0, fun _ _ => 0⟩, ⟨0, 0, fun _ _ => 0⟩))
      (fun _ _ => []) [1, 2, 3] ⟨"i", 0, 0⟩ =
      .ok [] := by
  constructor
  · norm_num [pyInt]
  · rfl
